import Mathlib

/-!
Shallow embedding of the personal-notes-manager frontend, from
`src/notes_frontend/src/routes/index.tsx`.

The page component keeps its UI state in signals (`notes`, `loading`, `err`,
`query`, `activeId`, `title`, `content`, plus the derived `token`); we collect
them in an `AppState` record.  Each `$`-wrapped handler (`loadNotes$`,
`newNote$`, `saveNote$`, `deleteNote$`, the `useTask$` editor sync, the
sidebar filter, and `AuthOverlay`'s `submit$`) becomes a pure function of the
state and of the HTTP response the single `api.*` call would produce; the
function also returns the list of HTTP requests it issued, so that "no call" /
"exactly one call" properties are expressible.

Modelling conventions:
* ISO-8601 timestamps are represented by their parsed epoch value
  (`new Date(s).getTime()`), an `Int`, which is exactly how the code consumes
  `updated_at`.
* JS `Array.prototype.sort` is a stable sort; a stable sort's output is
  uniquely determined by the comparison, so it is modelled by Mathlib's stable
  `List.insertionSort` with the comparator's ordering.
* JS truthiness of nullable strings (`!token.value`, `!activeId.value`,
  `res.error || fallback`, `query.value ? _ : _`) treats both `null` and the
  empty string as falsy; `strFalsy` and `orFallback` reproduce this.
* `res.data!` (non-null assertion on a success payload) is modelled by
  `Option.getD` with a default value; all success theorems additionally
  hypothesise `res.data = some _`, so the default never matters there.
* Strings are compared and transformed at the character-list level
  (`String.data`), with `jsTrim`, `lowerChars` and `jsIncludes` modelling
  `trim()`, `toLowerCase()` and `includes()`.
-/

/-- A note as returned by the backend (shape documented in `ENVIRONMENT.md`):
`id`, `title`, `content` are strings; the two ISO-8601 timestamps are
modelled by their parsed epoch values. -/
structure Note where
  id : String
  title : String
  content : String
  created_at : Int
  updated_at : Int
deriving DecidableEq, Repr, Inhabited

/-- Body of a create/update request: `NoteInput { title, content }`. -/
structure NoteInput where
  title : String
  content : String
deriving DecidableEq, Repr

/-- The uniform HTTP result shape `{ ok, data?, error? }` every `api.*` call
returns (spec §"Error handling"). -/
structure ApiResult (α : Type) where
  ok : Bool
  data : Option α := none
  error : Option String := none
deriving Repr

/-- JS truthiness test for a nullable string signal: `null`/`undefined` and
the empty string are falsy. -/
def strFalsy : Option String → Bool
  | none => true
  | some s => s == ""

/-- JS `e || fallback` where `e` is an optional error string: the fallback is
used when `e` is absent (or the empty string, which JS treats as falsy). -/
def orFallback (e : Option String) (fallback : String) : String :=
  match e with
  | none => fallback
  | some s => if s == "" then fallback else s

/-- An HTTP request issued against the notes API. -/
inductive Request where
  | get (path : String)
  | post (path : String) (body : NoteInput)
  | put (path : String) (body : NoteInput)
  | del (path : String)
deriving DecidableEq, Repr

/-- The page component's signal state (index.tsx lines 22-37). -/
structure AppState where
  token : Option String
  notes : List Note
  loading : Bool
  err : Option String
  query : String
  activeId : Option String
  title : String
  content : String
deriving Repr

/-- The ordering of the two `.sort((a, b) => new Date(b.updated_at).getTime()
- new Date(a.updated_at).getTime())` calls: `a` may precede `b` exactly when
`b.updated_at ≤ a.updated_at` (descending by `updated_at`). -/
def byUpdatedDesc (a b : Note) : Prop := b.updated_at ≤ a.updated_at

instance : DecidableRel byUpdatedDesc := fun a b => Int.decLe b.updated_at a.updated_at

instance : IsTotal Note byUpdatedDesc := ⟨fun a b => le_total b.updated_at a.updated_at⟩

instance : IsTrans Note byUpdatedDesc := ⟨fun _ _ _ h1 h2 => le_trans h2 h1⟩

/-- Model of the in-place JS `Array.prototype.sort` with the descending
`updated_at` comparator.  JS sort is stable, and a stable sort's output is
unique, so the stable `insertionSort` is extensionally the same function. -/
def sortByUpdatedDesc (l : List Note) : List Note := List.insertionSort byUpdatedDesc l

/-- Executable adjacent-pairs check: every note's `updated_at` is ≥ the next
note's (descending order). -/
def sortedDescB : List Note → Bool
  | [] => true
  | [_] => true
  | a :: b :: rest => decide (b.updated_at ≤ a.updated_at) && sortedDescB (b :: rest)

/-- Model of `loadNotes$` (index.tsx lines 40-60): bail out when the token is
falsy; otherwise issue `GET /notes`; on failure set `err`; on success store
the sorted payload and, when no note is active, select the first one. -/
def loadNotes (s : AppState) (res : ApiResult (List Note)) : AppState × List Request :=
  if strFalsy s.token then (s, [])
  else
    let s1 := { s with loading := true, err := none }
    let req := Request.get "/notes"
    let s2 := { s1 with loading := false }
    if !res.ok then
      ({ s2 with err := some (orFallback res.error "Failed to load notes") }, [req])
    else
      let sorted := sortByUpdatedDesc (res.data.getD [])
      let s3 := { s2 with notes := sorted }
      if strFalsy s3.activeId then
        match sorted with
        | first :: _ =>
          ({ s3 with activeId := some first.id, title := first.title, content := first.content }, [req])
        | [] => (s3, [req])
      else (s3, [req])

/-- Model of `newNote$` (index.tsx lines 86-97): `POST /notes` with
`{ title: "Untitled", content: "" }`; on failure set `err`; on success
prepend the returned note, make it active and load it into the editor. -/
def newNote (s : AppState) (res : ApiResult Note) : AppState × List Request :=
  let input : NoteInput := { title := "Untitled", content := "" }
  let req := Request.post "/notes" input
  if !res.ok then
    ({ s with err := some (orFallback res.error "Failed to create note") }, [req])
  else
    let d := res.data.getD default
    ({ s with notes := d :: s.notes, activeId := some d.id, title := d.title, content := d.content }, [req])

/-- Model of JS `String.prototype.trim`: strip leading and trailing
whitespace characters. -/
def jsTrim (s : String) : String :=
  ⟨((s.data.dropWhile Char.isWhitespace).reverse.dropWhile Char.isWhitespace).reverse⟩

/-- Model of `saveNote$` (index.tsx lines 99-117): with no active note it
delegates to `newNote$`; otherwise it issues `PUT /notes/:id` with the
trimmed title (or `"Untitled"` when trimming leaves it empty) and the raw
content, and on success replaces the matching note and re-sorts. -/
def saveNote (s : AppState) (res : ApiResult Note) : AppState × List Request :=
  if strFalsy s.activeId then newNote s res
  else
    let t := jsTrim s.title
    let input : NoteInput := { title := if t == "" then "Untitled" else t, content := s.content }
    let req := Request.put ("/notes/" ++ s.activeId.getD "") input
    if !res.ok then
      ({ s with err := some (orFallback res.error "Failed to save note") }, [req])
    else
      let updated := res.data.getD default
      let newList :=
        sortByUpdatedDesc (s.notes.map fun n => if n.id == updated.id then updated else n)
      ({ s with notes := newList, title := updated.title, content := updated.content }, [req])

/-- Model of `deleteNote$` (index.tsx lines 119-138): no-op when no note is
active; otherwise `DELETE /notes/:id`; on failure set `err`; on success drop
the note and promote the first remaining note, or clear the selection and the
editor when none remain. -/
def deleteNote (s : AppState) (res : ApiResult Unit) : AppState × List Request :=
  if strFalsy s.activeId then (s, [])
  else
    let id := s.activeId.getD ""
    let req := Request.del ("/notes/" ++ id)
    if !res.ok then
      ({ s with err := some (orFallback res.error "Failed to delete note") }, [req])
    else
      match s.notes.filter fun n => n.id != id with
      | first :: rest =>
        ({ s with notes := first :: rest, activeId := some first.id, title := first.title, content := first.content }, [req])
      | [] => ({ s with notes := [], activeId := none, title := "", content := "" }, [req])

/-- Model of the `useTask$` tracking `activeId` (index.tsx lines 69-79): look
the active id up in the list; copy the found note's fields into the editor,
or clear both fields when no note matches (in particular when the id is
null). -/
def syncEditor (s : AppState) : AppState :=
  match s.notes.find? fun n => some n.id == s.activeId with
  | some n => { s with title := n.title, content := n.content }
  | none => { s with title := "", content := "" }

/-- Model of JS `String.prototype.includes` at the character-list level:
some split point of `s` has `q` as a prefix of the remainder. -/
def jsIncludes (s q : List Char) : Bool :=
  (List.range (s.length + 1)).any fun i => q.isPrefixOf (s.drop i)

/-- Model of JS `String.prototype.toLowerCase` at the character-list level. -/
def lowerChars (s : String) : List Char := s.data.map Char.toLower

/-- The sidebar's filter predicate (index.tsx lines 200-204): the lowercased
title or content includes the lowercased query. -/
def matchesQuery (q : String) (n : Note) : Bool :=
  jsIncludes (lowerChars n.title) (lowerChars q) ||
    jsIncludes (lowerChars n.content) (lowerChars q)

/-- Model of the sidebar's `filtered` list (index.tsx lines 199-205): a falsy
(empty) query shows the full list, otherwise the list is filtered by
`matchesQuery`. -/
def filterNotes (notes : List Note) (q : String) : List Note :=
  if q == "" then notes else notes.filter (matchesQuery q)

/-- Claim-side notion for C10: `q` occurs contiguously inside `s`. -/
def SubstrOf (q s : List Char) : Prop := ∃ l r, s = l ++ q ++ r

/-- The authenticated user: `User { id, email }`. -/
structure User where
  id : String
  email : String
deriving DecidableEq, Repr, Inhabited

/-- Payload of a successful `POST /auth/login` / `POST /auth/register`:
`{ token, user: { id, email } }`. -/
structure AuthData where
  token : String
  user : User
deriving DecidableEq, Repr, Inhabited

/-- Which form the auth overlay is showing. -/
inductive AuthMode
  | login
  | register
deriving DecidableEq, Repr

/-- An HTTP request issued against the auth API. -/
inductive AuthRequest where
  | post (path : String) (email password : String)
deriving DecidableEq, Repr

/-- Local storage modelled as an association list; `setItem` replaces any
previous binding of the key. -/
def setItem (st : List (String × String)) (k v : String) : List (String × String) :=
  (k, v) :: st.filter fun kv => kv.1 != k

/-- Local storage lookup: the value bound to `k`, if any. -/
def getItem (st : List (String × String)) (k : String) : Option String :=
  (st.find? fun kv => kv.1 == k).map (·.2)

/-- Model of `JSON.stringify(res.data.user)` for the two-field user object
(escaping of quotes inside the fields is elided; the stored value is opaque
to every claim). -/
def serializeUser (u : User) : String :=
  "\x7b\"id\":\"" ++ u.id ++ "\",\"email\":\"" ++ u.email ++ "\"\x7d"

/-- The `AuthOverlay` component's signal state together with the auth signals
and local storage it writes (index.tsx lines 288-316). -/
structure AuthState where
  mode : AuthMode
  email : String
  password : String
  error : Option String
  loading : Bool
  token : Option String
  user : Option User
  storage : List (String × String)
deriving Repr

/-- Model of `submit$` in `AuthOverlay` (index.tsx lines 296-316): POST the
trimmed email and raw password to the mode's endpoint; on `!res.ok || !res.data`
set the error text and change nothing else; on success set the token and user
signals and persist both under `auth_token` / `auth_user`. -/
def submit (a : AuthState) (res : ApiResult AuthData) : AuthState × List AuthRequest :=
  let a1 := { a with loading := true, error := none }
  let path := if a.mode = AuthMode.login then "/auth/login" else "/auth/register"
  let req := AuthRequest.post path (jsTrim a.email) a.password
  let a2 := { a1 with loading := false }
  if !res.ok || res.data.isNone then
    ({ a2 with error := some (orFallback res.error "Authentication failed") }, [req])
  else
    let d := res.data.getD default
    let st := setItem (setItem a2.storage "auth_token" d.token) "auth_user" (serializeUser d.user)
    ({ a2 with token := some d.token, user := some d.user, storage := st }, [req])

/-- Modelled from the spec: the auth state holder lives in `~/lib/auth`, which
is not under `src/`; per the spec the session is "persisted under two
local-storage keys (`auth_token`, `auth_user`) and restored at startup;
absence of either invalidates the session", and "restoring from local storage
with a valid token+user populates the session without a network call".
`parseUser` stands for decoding the stored user JSON; a malformed stored
value yields `none`. The result is the restored `(token, user)` pair together
with the (empty) list of network requests issued. -/
def restoreSession (parseUser : String → Option User) (storage : List (String × String)) :
    (Option String × Option User) × List AuthRequest :=
  match getItem storage "auth_token", (getItem storage "auth_user").bind parseUser with
  | some t, some u => ((some t, some u), [])
  | _, _ => ((none, none), [])

/-! ### Helper lemmas -/

theorem sortedDescB_of_pairwise : ∀ {l : List Note}, l.Pairwise byUpdatedDesc → sortedDescB l = true
  | [], _ => rfl
  | [_], _ => rfl
  | a :: b :: rest, h => by
    rcases List.pairwise_cons.mp h with ⟨ha, htail⟩
    have hb : b.updated_at ≤ a.updated_at := ha b (List.mem_cons_self b rest)
    show (decide (b.updated_at ≤ a.updated_at) && sortedDescB (b :: rest)) = true
    rw [decide_eq_true hb, Bool.true_and]
    exact sortedDescB_of_pairwise htail

theorem sortedDescB_sort (l : List Note) : sortedDescB (sortByUpdatedDesc l) = true :=
  sortedDescB_of_pairwise (List.sorted_insertionSort byUpdatedDesc l)

theorem sortedDescB_cons {d : Note} {l : List Note} (hl : sortedDescB l = true)
    (hd : ∀ n ∈ l, n.updated_at ≤ d.updated_at) : sortedDescB (d :: l) = true := by
  cases l with
  | nil => rfl
  | cons a rest =>
    have ha : a.updated_at ≤ d.updated_at := hd a (List.mem_cons_self a rest)
    show (decide (a.updated_at ≤ d.updated_at) && sortedDescB (a :: rest)) = true
    rw [decide_eq_true ha, Bool.true_and]
    exact hl

theorem strFalsy_some_ne {i : String} (hi : i ≠ "") : strFalsy (some i) = false := by
  show (i == "") = false
  exact beq_eq_false_iff_ne.mpr hi

theorem newNote_fst_of_ok (s : AppState) (res : ApiResult Note) (d : Note)
    (hok : res.ok = true) (hdata : res.data = some d) :
    (newNote s res).1 =
      { s with notes := d :: s.notes, activeId := some d.id, title := d.title, content := d.content } := by
  simp [newNote, hok, hdata]

theorem newNote_snd (s : AppState) (res : ApiResult Note) :
    (newNote s res).2 = [Request.post "/notes" { title := "Untitled", content := "" }] := by
  cases hok : res.ok <;> simp [newNote, hok]

theorem loadNotes_notes_of_ok (s : AppState) (res : ApiResult (List Note))
    (ht : strFalsy s.token = false) (hok : res.ok = true) :
    (loadNotes s res).1.notes = sortByUpdatedDesc (res.data.getD []) := by
  simp only [loadNotes, ht, Bool.false_eq_true, if_false, hok, Bool.not_true, ite_false]
  split
  · split <;> rfl
  · rfl

theorem saveNote_notes_of_ok (s : AppState) (res : ApiResult Note)
    (hf : strFalsy s.activeId = false) (hok : res.ok = true) :
    (saveNote s res).1.notes =
      sortByUpdatedDesc (s.notes.map fun n =>
        if n.id == (res.data.getD default).id then res.data.getD default else n) := by
  simp [saveNote, hf, hok]

/-! ### Concrete fixtures for witnesses and counterexamples -/

/-- A concrete note used by the witness theorems. -/
def noteA : Note := { id := "a", title := "A", content := "alpha", created_at := 0, updated_at := 10 }

/-- A second concrete note with an older `updated_at`. -/
def noteB : Note := { id := "b", title := "B", content := "beta", created_at := 0, updated_at := 5 }

/-- A third concrete note with the newest `updated_at`. -/
def noteC : Note := { id := "c", title := "C", content := "gamma", created_at := 0, updated_at := 20 }

/-- A concrete component state: authenticated, one note, note `"a"` active. -/
def stateW : AppState :=
  { token := some "t", notes := [noteA], loading := false, err := none, query := "",
    activeId := some "a", title := "  hi ", content := "body" }

/-- Like `stateW` but with two notes in the list. -/
def stateW2 : AppState := { stateW with notes := [noteA, noteB] }

/-! ### Claim theorems -/

/-- C3: for every state and every successful `POST /notes` returning a note,
the created note becomes the head of the list, the tail is the previous list
unchanged, its id becomes the active id, and the editor fields take its title
and content. -/
theorem c3_create_prepends (s : AppState) (res : ApiResult Note) (d : Note)
    (hok : res.ok = true) (hdata : res.data = some d) :
    (newNote s res).1.notes = d :: s.notes ∧
    (newNote s res).1.activeId = some d.id ∧
    (newNote s res).1.title = d.title ∧
    (newNote s res).1.content = d.content := by
  rw [newNote_fst_of_ok s res d hok hdata]
  exact ⟨rfl, rfl, rfl, rfl⟩

/-- Witness for C3 at a concrete state and response. -/
theorem c3_witness :
    (newNote stateW { ok := true, data := some noteC }).1.notes = noteC :: stateW.notes ∧
    (newNote stateW { ok := true, data := some noteC }).1.activeId = some noteC.id ∧
    (newNote stateW { ok := true, data := some noteC }).1.title = noteC.title ∧
    (newNote stateW { ok := true, data := some noteC }).1.content = noteC.content :=
  c3_create_prepends stateW { ok := true, data := some noteC } noteC rfl rfl

/-- C8: when no note is active (`activeId` null), save delegates to create —
so no PUT is issued, only the single `POST /notes` with title `"Untitled"`
and empty content — and delete is a no-op that issues no HTTP request and
leaves the state unchanged. -/
theorem c8_save_delete_without_active (s : AppState) (res : ApiResult Note)
    (resD : ApiResult Unit) (h : s.activeId = none) :
    saveNote s res = newNote s res ∧
    (saveNote s res).2 = [Request.post "/notes" { title := "Untitled", content := "" }] ∧
    deleteNote s resD = (s, []) := by
  have hf : strFalsy s.activeId = true := by rw [h]; rfl
  refine ⟨by simp [saveNote, hf], ?_, by simp [deleteNote, hf]⟩
  have hs : saveNote s res = newNote s res := by simp [saveNote, hf]
  rw [hs]
  exact newNote_snd s res

/-- Witness for C8 at a concrete state with no active note. -/
theorem c8_witness :
    saveNote { stateW with activeId := none } { ok := true, data := some noteC } =
      newNote { stateW with activeId := none } { ok := true, data := some noteC } ∧
    (saveNote { stateW with activeId := none } { ok := true, data := some noteC }).2 =
      [Request.post "/notes" { title := "Untitled", content := "" }] ∧
    deleteNote { stateW with activeId := none } { ok := true } =
      ({ stateW with activeId := none }, []) :=
  c8_save_delete_without_active { stateW with activeId := none }
    { ok := true, data := some noteC } { ok := true } rfl

/-- C9: for every save of an active note the PUT body carries the editor
title with surrounding whitespace trimmed — replaced by `"Untitled"` when the
trimmed title is empty — and the content unmodified; and every create sends
`POST /notes` with title `"Untitled"` and empty content. -/
theorem c9_request_bodies (s : AppState) (res : ApiResult Note) (i : String)
    (ha : s.activeId = some i) (hi : i ≠ "") :
    (saveNote s res).2 =
      [Request.put ("/notes/" ++ i)
        { title := if jsTrim s.title = "" then "Untitled" else jsTrim s.title,
          content := s.content }] ∧
    (newNote s res).2 = [Request.post "/notes" { title := "Untitled", content := "" }] := by
  have hf : strFalsy s.activeId = false := by rw [ha]; exact strFalsy_some_ne hi
  refine ⟨?_, newNote_snd s res⟩
  have hget : s.activeId.getD "" = i := by rw [ha]; rfl
  cases hok : res.ok <;>
    simp [saveNote, hf, hok, hget, beq_iff_eq]

/-- Witness for C9: the editor title `"  hi "` is sent as `"hi"` with the
content untouched. -/
theorem c9_witness :
    (saveNote stateW { ok := true, data := some noteC }).2 =
      [Request.put "/notes/a" { title := "hi", content := "body" }] ∧
    (newNote stateW { ok := true, data := some noteC }).2 =
      [Request.post "/notes" { title := "Untitled", content := "" }] := by
  have h := c9_request_bodies stateW { ok := true, data := some noteC } "a" rfl (by decide)
  exact ⟨h.1, h.2⟩

/-- C1 as stated is false: `newNote$` prepends the created note without
re-sorting, so a successful create whose returned note has an older
`updated_at` than a note already in the list leaves the list unsorted. -/
theorem c1_counterexample :
    ({ ok := true, data := some noteB, error := none } : ApiResult Note).ok = true ∧
    sortedDescB (newNote stateW { ok := true, data := some noteB, error := none }).1.notes = false :=
  ⟨rfl, by decide⟩

/-- C1 (amended): after a successful load or update the list is sorted
descending by `updated_at` with no assumption on the server's ordering; after
a successful create the new note is prepended, so the list is sorted provided
it was sorted before and the created note's `updated_at` is at least that of
every note already in the list. -/
theorem c1_sorted_after_operations (s : AppState) (resL : ApiResult (List Note))
    (resP resN : ApiResult Note) (d : Note) :
    (strFalsy s.token = false → resL.ok = true →
      sortedDescB (loadNotes s resL).1.notes = true) ∧
    (strFalsy s.activeId = false → resP.ok = true →
      sortedDescB (saveNote s resP).1.notes = true) ∧
    (resN.ok = true → resN.data = some d → sortedDescB s.notes = true →
      (∀ n ∈ s.notes, n.updated_at ≤ d.updated_at) →
      sortedDescB (newNote s resN).1.notes = true) := by
  refine ⟨fun ht hok => ?_, fun hf hok => ?_, fun hok hdata hsorted hle => ?_⟩
  · rw [loadNotes_notes_of_ok s resL ht hok]
    exact sortedDescB_sort _
  · rw [saveNote_notes_of_ok s resP hf hok]
    exact sortedDescB_sort _
  · rw [newNote_fst_of_ok s resN d hok hdata]
    exact sortedDescB_cons hsorted hle

/-- Witness for the amended C1 at concrete states and responses. -/
theorem c1_witness :
    sortedDescB (loadNotes stateW { ok := true, data := some [noteB, noteA] }).1.notes = true ∧
    sortedDescB (saveNote stateW { ok := true, data := some noteC }).1.notes = true ∧
    sortedDescB (newNote stateW { ok := true, data := some noteC }).1.notes = true :=
  ⟨(c1_sorted_after_operations stateW { ok := true, data := some [noteB, noteA] }
      { ok := true, data := some noteC } { ok := true, data := some noteC } noteC).1
      (by decide) rfl,
   (c1_sorted_after_operations stateW { ok := true, data := some [noteB, noteA] }
      { ok := true, data := some noteC } { ok := true, data := some noteC } noteC).2.1
      (by decide) rfl,
   (c1_sorted_after_operations stateW { ok := true, data := some [noteB, noteA] }
      { ok := true, data := some noteC } { ok := true, data := some noteC } noteC).2.2
      rfl rfl (by decide) (by decide)⟩

/-- C2: when a note is active and the `DELETE` call succeeds, the remaining
list is the previous list with every note of the deleted id removed (order
preserved); the new active note is the first remaining note in list order,
its fields loaded into the editor; when no notes remain, the selection is
cleared and both editor fields are emptied. -/
theorem c2_delete_active (s : AppState) (res : ApiResult Unit) (i : String)
    (ha : s.activeId = some i) (hi : i ≠ "") (hok : res.ok = true) :
    (deleteNote s res).1.notes = s.notes.filter (fun n => n.id != i) ∧
    (∀ n ∈ (deleteNote s res).1.notes, n.id ≠ i) ∧
    (∀ first rest, s.notes.filter (fun n => n.id != i) = first :: rest →
      (deleteNote s res).1.activeId = some first.id ∧
      (deleteNote s res).1.title = first.title ∧
      (deleteNote s res).1.content = first.content) ∧
    (s.notes.filter (fun n => n.id != i) = [] →
      (deleteNote s res).1.activeId = none ∧
      (deleteNote s res).1.title = "" ∧
      (deleteNote s res).1.content = "") := by
  have hf : strFalsy s.activeId = false := by rw [ha]; exact strFalsy_some_ne hi
  have hget : s.activeId.getD "" = i := by rw [ha]; rfl
  have hmem : ∀ n ∈ s.notes.filter (fun n => n.id != i), n.id ≠ i := by
    intro n hn
    have := (List.mem_filter.mp hn).2
    exact bne_iff_ne.mp this
  rcases hfil : s.notes.filter (fun n => n.id != i) with _ | ⟨first, rest⟩
  · have hdel : (deleteNote s res).1 =
        { s with notes := [], activeId := none, title := "", content := "" } := by
      simp [deleteNote, hf, hok, hget, hfil]
    refine ⟨?_, ?_, ?_, fun _ => ?_⟩
    · rw [hdel, hfil]
    · intro n hn
      rw [hdel] at hn
      exact absurd hn (List.not_mem_nil n)
    · intro f r hfr
      rw [hfil] at hfr
      exact List.noConfusion hfr
    · rw [hdel]
      exact ⟨rfl, rfl, rfl⟩
  · have hdel : (deleteNote s res).1 =
        { s with notes := first :: rest, activeId := some first.id, title := first.title, content := first.content } := by
      simp [deleteNote, hf, hok, hget, hfil]
    refine ⟨?_, ?_, ?_, ?_⟩
    · rw [hdel, hfil]
    · intro n hn
      rw [hdel] at hn
      exact hmem n (by rw [hfil]; exact hn)
    · intro f r hfr
      rw [hfil] at hfr
      cases hfr
      exact ⟨by rw [hdel], by rw [hdel], by rw [hdel]⟩
    · intro hnil
      rw [hfil] at hnil
      exact List.noConfusion hnil

/-- Witness for C2: deleting the active note `"a"` from a two-note list
removes it and promotes `"b"`. -/
theorem c2_witness :
    (deleteNote stateW2 { ok := true }).1.activeId = some "b" ∧
    (∀ n ∈ (deleteNote stateW2 { ok := true }).1.notes, n.id ≠ "a") := by
  have h := c2_delete_active stateW2 { ok := true } "a" rfl (by decide) rfl
  refine ⟨?_, h.2.1⟩
  exact (h.2.2.1 noteB [] (by decide)).1

/-- C4: for every load, create, update, or delete whose HTTP call fails, the
notes list and active id are unchanged, the error signal is set to the
result's error string (with the action's fixed fallback when no non-empty
error string is provided — JS `||` coalescing), and exactly one HTTP request
was issued (no retry). -/
theorem c4_failure_preserves_state (s : AppState) (resL : ApiResult (List Note))
    (resN resP : ApiResult Note) (resD : ApiResult Unit) :
    (strFalsy s.token = false → resL.ok = false →
      (loadNotes s resL).1.notes = s.notes ∧
      (loadNotes s resL).1.activeId = s.activeId ∧
      (loadNotes s resL).1.err = some (orFallback resL.error "Failed to load notes") ∧
      (loadNotes s resL).2.length = 1) ∧
    (resN.ok = false →
      (newNote s resN).1.notes = s.notes ∧
      (newNote s resN).1.activeId = s.activeId ∧
      (newNote s resN).1.err = some (orFallback resN.error "Failed to create note") ∧
      (newNote s resN).2.length = 1) ∧
    (strFalsy s.activeId = false → resP.ok = false →
      (saveNote s resP).1.notes = s.notes ∧
      (saveNote s resP).1.activeId = s.activeId ∧
      (saveNote s resP).1.err = some (orFallback resP.error "Failed to save note") ∧
      (saveNote s resP).2.length = 1) ∧
    (strFalsy s.activeId = false → resD.ok = false →
      (deleteNote s resD).1.notes = s.notes ∧
      (deleteNote s resD).1.activeId = s.activeId ∧
      (deleteNote s resD).1.err = some (orFallback resD.error "Failed to delete note") ∧
      (deleteNote s resD).2.length = 1) := by
  refine ⟨fun ht hok => ?_, fun hok => ?_, fun hf hok => ?_, fun hf hok => ?_⟩
  · simp [loadNotes, ht, hok]
  · simp [newNote, hok]
  · simp [saveNote, hf, hok]
  · simp [deleteNote, hf, hok]

/-- Witness for C4 at a concrete state and four concrete failing responses,
one of which omits the error string and one of which provides the empty
string. -/
theorem c4_witness :
    (loadNotes stateW { ok := false, error := some "x1" }).1.notes = stateW.notes ∧
    (newNote stateW { ok := false, error := none }).1.err = some "Failed to create note" ∧
    (saveNote stateW { ok := false, error := some "" }).1.err = some "Failed to save note" ∧
    (deleteNote stateW { ok := false, error := some "x4" }).1.err = some "x4" ∧
    (deleteNote stateW { ok := false, error := some "x4" }).2.length = 1 := by
  have h := c4_failure_preserves_state stateW { ok := false, error := some "x1" }
    { ok := false, error := none } { ok := false, error := some "" }
    { ok := false, error := some "x4" }
  exact ⟨(h.1 (by decide) rfl).1, (h.2.1 rfl).2.2.1, (h.2.2.1 (by decide) rfl).2.2.1,
    (h.2.2.2 (by decide) rfl).2.2.1, (h.2.2.2 (by decide) rfl).2.2.2⟩

/-- C5: for every login or register submission whose call fails (not ok, or
no payload), the token and user stay `none`, local storage is untouched, the
displayed error is the server's error string (with fallback
`"Authentication failed"` when no non-empty error string is provided), and
exactly one request was issued. -/
theorem c5_auth_failure (a : AuthState) (res : ApiResult AuthData)
    (htok : a.token = none) (husr : a.user = none)
    (hfail : res.ok = false ∨ res.data = none) :
    (submit a res).1.token = none ∧
    (submit a res).1.user = none ∧
    (submit a res).1.storage = a.storage ∧
    (submit a res).1.error = some (orFallback res.error "Authentication failed") ∧
    (submit a res).2.length = 1 := by
  have hc : (!res.ok || res.data.isNone) = true := by
    rcases hfail with h | h
    · rw [h]; rfl
    · rw [h]; simp
  simp [submit, hc, htok, husr]

/-- A concrete signed-out auth overlay state used by the C5 witness. -/
def authW : AuthState :=
  { mode := AuthMode.login, email := " e@x ", password := "p", error := none, loading := false, token := none, user := none, storage := [("k", "v")] }

/-- Witness for C5 at a concrete signed-out auth state and failing response. -/
theorem c5_witness :
    (submit authW { ok := false, error := some "bad credentials" }).1.token = none ∧
    (submit authW { ok := false, error := some "bad credentials" }).1.user = none ∧
    (submit authW { ok := false, error := some "bad credentials" }).1.storage = [("k", "v")] ∧
    (submit authW { ok := false, error := some "bad credentials" }).1.error =
      some (orFallback (some "bad credentials") "Authentication failed") ∧
    (submit authW { ok := false, error := some "bad credentials" }).2.length = 1 :=
  c5_auth_failure authW { ok := false, error := some "bad credentials" } rfl rfl (Or.inl rfl)

/-- C6: after the editor-sync task runs, if some note in the list has the
active id, the editor fields equal the first such note's title and content;
if no note has the active id — in particular when it is null — both fields
are the empty string. -/
theorem c6_editor_sync (s : AppState) :
    ((∃ n ∈ s.notes, some n.id = s.activeId) →
      ∃ n ∈ s.notes, some n.id = s.activeId ∧
        (syncEditor s).title = n.title ∧ (syncEditor s).content = n.content) ∧
    ((∀ n ∈ s.notes, some n.id ≠ s.activeId) →
      (syncEditor s).title = "" ∧ (syncEditor s).content = "") ∧
    (s.activeId = none → (syncEditor s).title = "" ∧ (syncEditor s).content = "") := by
  rcases hfind : s.notes.find? (fun n => some n.id == s.activeId) with _ | n
  · have hsync : syncEditor s = { s with title := "", content := "" } := by
      simp [syncEditor, hfind]
    refine ⟨?_, fun _ => ⟨by rw [hsync], by rw [hsync]⟩, fun _ => ⟨by rw [hsync], by rw [hsync]⟩⟩
    rintro ⟨n, hn, heq⟩
    have := List.find?_eq_none.mp hfind n hn
    exact absurd (beq_iff_eq.mpr heq) this
  · have hsync : syncEditor s = { s with title := n.title, content := n.content } := by
      simp [syncEditor, hfind]
    have hp0 := @List.find?_some Note (fun n0 : Note => some n0.id == s.activeId) n s.notes hfind
    have hp : some n.id = s.activeId := beq_iff_eq.mp hp0
    have hmem : n ∈ s.notes := List.mem_of_find?_eq_some hfind
    refine ⟨fun _ => ⟨n, hmem, hp, by rw [hsync], by rw [hsync]⟩, fun hall => ?_, fun hnone => ?_⟩
    · exact absurd hp (hall n hmem)
    · rw [hnone] at hp
      exact Option.noConfusion hp

/-- Witness for C6: with `"a"` active the editor holds note `"a"`'s fields;
with a null id both fields are cleared. -/
theorem c6_witness :
    (∃ n ∈ stateW2.notes, some n.id = stateW2.activeId ∧
      (syncEditor stateW2).title = n.title ∧ (syncEditor stateW2).content = n.content) ∧
    (syncEditor { stateW with activeId := none }).title = "" ∧
    (syncEditor { stateW with activeId := none }).content = "" :=
  ⟨(c6_editor_sync stateW2).1 ⟨noteA, by decide, by decide⟩,
   (c6_editor_sync { stateW with activeId := none }).2.2 rfl⟩

/-- C7: if both local-storage keys `auth_token` and `auth_user` are present
and the stored user decodes, startup restores the session from them while
issuing no network request; if either key is absent the session stays unset.
(The auth holder itself is modelled from the spec; see `restoreSession`.) -/
theorem c7_session_restore (parseUser : String → Option User)
    (storage : List (String × String)) (t uStr : String) (u : User) :
    (getItem storage "auth_token" = some t → getItem storage "auth_user" = some uStr →
      parseUser uStr = some u →
      restoreSession parseUser storage = ((some t, some u), [])) ∧
    (getItem storage "auth_token" = none ∨ getItem storage "auth_user" = none →
      (restoreSession parseUser storage).1 = (none, none)) := by
  constructor
  · intro h1 h2 h3
    simp [restoreSession, h1, h2, h3]
  · rintro (h | h)
    · rcases hu : (getItem storage "auth_user").bind parseUser with _ | u2 <;>
        simp [restoreSession, h, hu]
    · rcases ht : getItem storage "auth_token" with _ | t2 <;>
        simp [restoreSession, h, ht]

/-- Witness for C7 with a concrete store and decoder: restoration succeeds
with both keys present and yields no session when the token key is absent. -/
theorem c7_witness :
    restoreSession (fun s => if s == "u1" then some { id := "1", email := "e@x" } else none)
      [("auth_token", "tok"), ("auth_user", "u1")] =
      ((some "tok", some { id := "1", email := "e@x" }), []) ∧
    (restoreSession (fun s => if s == "u1" then some { id := "1", email := "e@x" } else none)
      [("auth_user", "u1")]).1 = (none, none) :=
  ⟨(c7_session_restore (fun s => if s == "u1" then some { id := "1", email := "e@x" } else none)
      [("auth_token", "tok"), ("auth_user", "u1")] "tok" "u1" { id := "1", email := "e@x" }).1
      rfl rfl rfl,
   (c7_session_restore (fun s => if s == "u1" then some { id := "1", email := "e@x" } else none)
      [("auth_user", "u1")] "" "" default).2 (Or.inl rfl)⟩

/-! ### Substring characterisation for the sidebar filter -/

theorem isPrefixOf_iff_exists : ∀ (p l : List Char), p.isPrefixOf l = true ↔ ∃ t, l = p ++ t
  | [], l => by
    simp [List.isPrefixOf]
  | a :: p, [] => by
    simp [List.isPrefixOf]
  | a :: p, b :: l => by
    simp only [List.isPrefixOf, Bool.and_eq_true, beq_iff_eq, isPrefixOf_iff_exists p l]
    constructor
    · rintro ⟨rfl, t, rfl⟩
      exact ⟨t, rfl⟩
    · rintro ⟨t, ht⟩
      injection ht with h1 h2
      exact ⟨h1.symm, t, h2⟩

theorem jsIncludes_iff (s q : List Char) : jsIncludes s q = true ↔ SubstrOf q s := by
  unfold jsIncludes SubstrOf
  rw [List.any_eq_true]
  constructor
  · rintro ⟨i, _, hpre⟩
    rcases (isPrefixOf_iff_exists q (s.drop i)).mp hpre with ⟨r, hr⟩
    refine ⟨s.take i, r, ?_⟩
    rw [List.append_assoc, ← hr, List.take_append_drop]
  · rintro ⟨l, r, rfl⟩
    refine ⟨l.length, ?_, ?_⟩
    · rw [List.mem_range, List.length_append, List.length_append]
      omega
    · rw [isPrefixOf_iff_exists]
      refine ⟨r, ?_⟩
      rw [List.append_assoc, List.drop_left]

theorem substrOf_nil (s : List Char) : SubstrOf [] s := ⟨[], s, rfl⟩

theorem matchesQuery_iff (q : String) (n : Note) :
    matchesQuery q n = true ↔
      SubstrOf (lowerChars q) (lowerChars n.title) ∨
        SubstrOf (lowerChars q) (lowerChars n.content) := by
  unfold matchesQuery
  rw [Bool.or_eq_true, jsIncludes_iff, jsIncludes_iff]

/-- C10: the sidebar shows exactly the notes whose lowercased title or
content contains the lowercased query as a substring; the filtered list is a
subsequence of the full list (relative order preserved); and the empty query
shows the full list unchanged. -/
theorem c10_sidebar_filter (notes : List Note) (q : String) :
    (∀ n, n ∈ filterNotes notes q ↔
      n ∈ notes ∧ (SubstrOf (lowerChars q) (lowerChars n.title) ∨
        SubstrOf (lowerChars q) (lowerChars n.content))) ∧
    (filterNotes notes q).Sublist notes ∧
    filterNotes notes "" = notes := by
  refine ⟨?_, ?_, rfl⟩
  · intro n
    by_cases hq : q = ""
    · subst hq
      have : filterNotes notes "" = notes := rfl
      rw [this]
      simp [substrOf_nil, lowerChars]
    · have hq' : (q == "") = false := beq_eq_false_iff_ne.mpr hq
      have : filterNotes notes q = notes.filter (matchesQuery q) := by
        simp [filterNotes, hq']
      rw [this, List.mem_filter, matchesQuery_iff]
  · by_cases hq : q = ""
    · subst hq
      exact List.Sublist.refl notes
    · have hq' : (q == "") = false := beq_eq_false_iff_ne.mpr hq
      have : filterNotes notes q = notes.filter (matchesQuery q) := by
        simp [filterNotes, hq']
      rw [this]
      exact List.filter_sublist notes
